import Mathlib

/-!
Verification of the Qube Monitor support layer (student status aggregator,
serial line decoder, bounded event log, connection health check) against its
natural-language specification.

The Python source under `software/QubeMonitorApp/support/` is shallowly
embedded below.  Timestamps are modelled as integers (`Int` seconds); Python
`dict`s (which preserve insertion order) are modelled as association lists
with in-place replacement on key collision; Python `set`s of student numbers
are modelled as duplicate-free lists with membership via `List.contains`.
String primitives used by the source (`str.split`, `str.strip`, `int(...)`,
`str.startswith`, `in`) are re-implemented over `List Char` so that every
definition evaluates inside the kernel.
-/

/-! ## Python string primitives -/

/-- Characters stripped by Python `str.strip()` with no argument. -/
def isPySpace (c : Char) : Bool :=
  c = ' ' || c = '\t' || c = '\n' || c = '\r' || c = '\x0b' || c = '\x0c'

/-- Python `str.strip()` on a character list. -/
def pyStripList (cs : List Char) : List Char :=
  ((cs.dropWhile isPySpace).reverse.dropWhile isPySpace).reverse

/-- Python `str.strip()`. -/
def pyStrip (s : String) : String := ⟨pyStripList s.data⟩

/-- Python truthiness test `not s.strip()`: true iff `s` is empty or
consists solely of whitespace. -/
def pyIsBlank (s : String) : Bool := s.data.all isPySpace

/-- Python `str.split(sep)` for a single-character separator, on character
lists.  Splitting the empty string yields one empty field, as in Python. -/
def splitChar (sep : Char) : List Char → List (List Char)
  | [] => [[]]
  | c :: cs =>
    let rest := splitChar sep cs
    if c = sep then [] :: rest
    else match rest with
      | [] => [[c]]
      | r :: rs => (c :: r) :: rs

/-- Python `s.split(sep)` for a single-character separator. -/
def pySplit (sep : Char) (s : String) : List String :=
  (splitChar sep s.data).map (fun cs => ⟨cs⟩)

/-- Python `s.split(':', 1)` under the precondition that `':'` occurs in
`s`: the text before the first colon paired with everything after it. -/
def pySplitColon1 (s : String) : String × String :=
  match splitChar ':' s.data with
  | [] => (s, "")
  | [x] => (⟨x⟩, "")
  | x :: rest => (⟨x⟩, ⟨(rest.map (fun r => ':' :: r)).flatten.drop 1⟩)

/-- Numeric value of a decimal digit character. -/
def digitVal (c : Char) : Nat := c.toNat - 48

/-- Digit-sequence loop of Python `int(...)`: consumes decimal digits,
allowing a single underscore between two digits (CPython's grouping rule). -/
def pyDigitsGo (acc : Nat) : List Char → Option Nat
  | [] => some acc
  | c :: cs =>
    if c.isDigit then pyDigitsGo (10 * acc + digitVal c) cs
    else if c = '_' then
      match cs with
      | [] => none
      | d :: cs2 => if d.isDigit then pyDigitsGo (10 * acc + digitVal d) cs2 else none
    else none

/-- Value of a nonempty digit sequence (no leading underscore). -/
def pyDigitsVal : List Char → Option Nat
  | [] => none
  | c :: cs => if c.isDigit then pyDigitsGo (digitVal c) cs else none

/-- Python `int(s)` for base-10 text: optional surrounding whitespace,
optional single sign, then digits; `none` models a raised `ValueError`. -/
def parsePyInt (s : String) : Option Int :=
  match pyStripList s.data with
  | '+' :: rest => (pyDigitsVal rest).map (fun n => (n : Int))
  | '-' :: rest => (pyDigitsVal rest).map (fun n => -(n : Int))
  | rest => (pyDigitsVal rest).map (fun n => (n : Int))

/-! ## Ordered-dict and set primitives -/

/-- Python `d[k] = v` on an insertion-ordered dict: replace in place if the
key is present, otherwise append at the end. -/
def dictInsert {α : Type} : List (Int × α) → Int → α → List (Int × α)
  | [], k, v => [(k, v)]
  | (k', v') :: rest, k, v =>
    if k' = k then (k, v) :: rest else (k', v') :: dictInsert rest k v

/-- In-place update of the value stored under a key, as done by mutating a
dict entry (`d[k].update(...)` / `d[k]['f'] = x`). -/
def dictModify {α : Type} (m : List (Int × α)) (k : Int) (f : α → α) : List (Int × α) :=
  m.map (fun p => if p.1 = k then (p.1, f p.2) else p)

/-- Python `set.add`: append only when absent (membership is what matters;
insertion order of the model list is immaterial). -/
def setAdd (l : List Int) (n : Int) : List Int :=
  if l.contains n then l else l ++ [n]

/-! ## Configuration constants (`support/config.py`) -/

/-- `MIN_STUDENT_NUMBER` from `config.py`. -/
def MIN_STUDENT_NUMBER : Int := 100000

/-- `MAX_STUDENT_NUMBER` from `config.py`. -/
def MAX_STUDENT_NUMBER : Int := 999999

/-- `DUPLICATE_MESSAGE_THRESHOLD` from `config.py` (seconds). -/
def DUPLICATE_MESSAGE_THRESHOLD : Int := 5

/-- `DURATION_WARNING_THRESHOLD` from `config.py` (seconds). -/
def DURATION_WARNING_THRESHOLD : Int := 120

/-- `DURATION_CRITICAL_THRESHOLD` from `config.py` (seconds). -/
def DURATION_CRITICAL_THRESHOLD : Int := 300

/-- `MAX_LOG_ENTRIES` from `config.py`. -/
def MAX_LOG_ENTRIES : Nat := 1000

/-- `SERIAL_HEARTBEAT_TIMEOUT` from `config.py` (seconds). -/
def SERIAL_HEARTBEAT_TIMEOUT : Int := 40

/-- `SERIAL_HEARTBEAT_RECONNECT` from `config.py` (seconds). -/
def SERIAL_HEARTBEAT_RECONNECT : Int := 90

/-- `SERIAL_RECONNECT_INTERVAL` from `config.py` (seconds). -/
def SERIAL_RECONNECT_INTERVAL : Int := 180

/-- `STATUS_MAP` from `config.py`: status code to (display text, color). -/
def STATUS_MAP (code : String) : Option (String × String) :=
  if code = "G" then some ("Beschikbaar", "green")
  else if code = "V" then some ("Vraag", "orange")
  else if code = "R" then some ("Hulp nodig", "red")
  else none

/-- `LOG_COLORS` from `config.py`, with the `.get(..., "#000000")` default. -/
def LOG_COLORS (t : String) : String :=
  if t = "STATUS" then "#0066CC"
  else if t = "ERROR" then "#CC0000"
  else if t = "HEALTH" then "#FF6600"
  else if t = "INFO" then "#000000"
  else "#000000"

/-! ## StudentManager (`support/student_manager.py`) -/

/-- One `status_info` dict as built by `StudentManager.update_student_status`:
display text, color, wall-clock string, status code, last-update timestamp and
status-start timestamp. -/
structure StatusRecord where
  status : String
  color : String
  time : String
  code : String
  last_update : Int
  status_start_time : Int
deriving DecidableEq, Repr

/-- The mutable state of a `StudentManager` instance. -/
structure StudentManager where
  allowed_students : List Int
  student_names : List (Int × String)
  student_statuses : List (Int × StatusRecord)
deriving DecidableEq, Repr

/-- `StudentManager.__init__`. -/
def initStudentManager : StudentManager := ⟨[], [], []⟩

/-- One iteration of the roster-parsing loop in
`StudentManager.update_allowed_students`: strip the line, skip it when empty,
otherwise parse `123456:Name` or a bare `123456`, skipping lines whose number
does not parse or is out of range. -/
def parseRosterLine (acc : List Int × List (Int × String)) (rawLine : String) :
    List Int × List (Int × String) :=
  let line := pyStrip rawLine
  if line = "" then acc
  else if line.data.contains ':' then
    let (numStr, name) := pySplitColon1 line
    match parsePyInt numStr with
    | none => acc
    | some num =>
      if MIN_STUDENT_NUMBER ≤ num ∧ num ≤ MAX_STUDENT_NUMBER then
        (setAdd acc.1 num, dictInsert acc.2 num (pyStrip name))
      else acc
  else
    match parsePyInt line with
    | none => acc
    | some num =>
      if MIN_STUDENT_NUMBER ≤ num ∧ num ≤ MAX_STUDENT_NUMBER then
        (setAdd acc.1 num, dictInsert acc.2 num ("Student " ++ toString num))
      else acc

/-- `StudentManager.update_allowed_students`: blank input empties the
allow-list and name map and returns at once; otherwise the roster is parsed
line by line, the allow-list and name map are replaced, and every status
record whose student is no longer allowed is deleted. -/
def update_allowed_students (m : StudentManager) (student_text : String) : StudentManager :=
  if pyIsBlank student_text then
    { m with allowed_students := [], student_names := [] }
  else
    let parsed := (pySplit '\n' student_text).foldl parseRosterLine ([], [])
    { allowed_students := parsed.1
      student_names := parsed.2
      student_statuses := m.student_statuses.filter (fun p => parsed.1.contains p.1) }

/-- `StudentManager.is_student_allowed`. -/
def is_student_allowed (m : StudentManager) (student_number : Int) : Bool :=
  m.allowed_students.contains student_number

/-- `StudentManager.update_student_status`, with the wall clock passed in as
`now` (seconds) and `nowStr` (the `%H:%M:%S` rendering).  Returns the new
manager state together with the status record the Python function returns
(`none` when the update was ignored or was a repeat). -/
def update_student_status (m : StudentManager) (student_number : Int)
    (status_code : String) (now : Int) (nowStr : String) :
    StudentManager × Option StatusRecord :=
  if ¬ is_student_allowed m student_number then (m, none)
  else match STATUS_MAP status_code with
  | none => (m, none)
  | some (status_text, color) =>
    match m.student_statuses.lookup student_number with
    | some prev =>
      if prev.code = status_code then
        if now - prev.last_update < DUPLICATE_MESSAGE_THRESHOLD then (m, none)
        else
          let ss := dictModify m.student_statuses student_number
            (fun r => { r with last_update := now })
          ({ m with student_statuses := ss }, none)
      else
        let info : StatusRecord :=
          ⟨status_text, color, nowStr, status_code, now, now⟩
        let ss := dictInsert m.student_statuses student_number info
        ({ m with student_statuses := ss }, some info)
    | none =>
      let info : StatusRecord :=
        ⟨status_text, color, nowStr, status_code, now, now⟩
      let ss := dictInsert m.student_statuses student_number info
      ({ m with student_statuses := ss }, some info)

/-- `StudentManager.resolve_student_issue`: when a record exists, overwrite
its status text, color, code and last-update in place and report success. -/
def resolve_student_issue (m : StudentManager) (student_number : Int) (now : Int) :
    StudentManager × Bool :=
  match m.student_statuses.lookup student_number with
  | some _ =>
    let ss := dictModify m.student_statuses student_number
      (fun r => { r with status := "Opgelost", color := "blue",
                         code := "G", last_update := now })
    ({ m with student_statuses := ss }, true)
  | none => (m, false)

/-- `StudentManager.clear_all_statuses`. -/
def clear_all_statuses (m : StudentManager) : StudentManager :=
  { m with student_statuses := [] }

/-- The sort key of `StudentManager.get_sorted_students`: help-needed records
first with key `(0, -status_start_time)`, questions next with
`(1, -status_start_time)`, everything else with `(2, student_number)`. -/
def sort_priority (p : Int × StatusRecord) : Int × Int :=
  if p.2.code = "R" then (0, -p.2.status_start_time)
  else if p.2.code = "V" then (1, -p.2.status_start_time)
  else (2, p.1)

/-- Lexicographic comparison of sort keys, as Python compares int pairs. -/
def keyLe (k1 k2 : Int × Int) : Bool :=
  k1.1 < k2.1 || (k1.1 = k2.1 && k1.2 ≤ k2.2)

/-- Stable insertion of one element into a list sorted by `sort_priority`;
an element being inserted comes before the first strictly larger key and
after equal keys already placed, matching the stability of Python `sorted`. -/
def ordInsert (a : Int × StatusRecord) : List (Int × StatusRecord) → List (Int × StatusRecord)
  | [] => [a]
  | b :: bs =>
    if keyLe (sort_priority a) (sort_priority b) then a :: b :: bs
    else b :: ordInsert a bs

/-- Stable sort by `sort_priority`, equivalent to Python
`sorted(items, key=sort_priority)`. -/
def sortByPriority : List (Int × StatusRecord) → List (Int × StatusRecord)
  | [] => []
  | x :: xs => ordInsert x (sortByPriority xs)

/-- `StudentManager.get_sorted_students`. -/
def get_sorted_students (m : StudentManager) : List (Int × StatusRecord) :=
  sortByPriority m.student_statuses

/-- Duration rendering of `StudentManager.calculate_status_duration`:
`"Xs"` under a minute, `"Xm Ys"` under an hour, `"Xh Ym"` beyond. -/
def formatDuration (d : Int) : String :=
  if d < 60 then toString d ++ "s"
  else if d < 3600 then toString (d / 60) ++ "m " ++ toString (d % 60) ++ "s"
  else toString (d / 3600) ++ "h " ++ toString ((d % 3600) / 60) ++ "m"

/-- Severity color of `StudentManager.calculate_status_duration`: red above
the critical threshold, orange above the warning threshold, black otherwise. -/
def durationColor (d : Int) : String :=
  if d > DURATION_CRITICAL_THRESHOLD then "red"
  else if d > DURATION_WARNING_THRESHOLD then "orange"
  else "black"

/-- `StudentManager.calculate_status_duration`, with the wall clock passed in
as `now`: `none` when the student is untracked or the record's code is not
`V` or `R`, otherwise the formatted elapsed time since status-start and its
severity color. -/
def calculate_status_duration (m : StudentManager) (student_number : Int) (now : Int) :
    Option (String × String) :=
  match m.student_statuses.lookup student_number with
  | none => none
  | some info =>
    if info.code ≠ "V" ∧ info.code ≠ "R" then none
    else
      let d := now - info.status_start_time
      some (formatDuration d, durationColor d)

/-! ## Serial line decoder (`support/serial_manager.py`, `_process_serial_message`) -/

/-- Classified rejection reasons of the line validator, one per early-return
branch of `SerialManager._process_serial_message`. -/
inductive RejectReason where
  | malformedLine
  | unrecognizedRole
  | invalidStudentId
  | unknownStatusCode
deriving DecidableEq, Repr

/-- A decoded event: the student number and status code handed to the data
callback on a fully validated line. -/
structure DecodedEvent where
  studentId : Int
  statusCode : String
deriving DecidableEq, Repr

/-- Python `role.startswith('L')`: the first character is `L`. -/
def startsWithL (s : String) : Bool :=
  match s.data with
  | c :: _ => c = 'L'
  | [] => false

/-- `SerialManager._process_serial_message`: split the line on commas,
require at least three fields, a role starting with `L`, a student number in
`[MIN_STUDENT_NUMBER, MAX_STUDENT_NUMBER]` and a known status code, in that
order with the first failure short-circuiting; all fields are stripped. -/
def process_serial_message (line : String) : Except RejectReason DecodedEvent :=
  match pySplit ',' line with
  | part0 :: part1 :: part2 :: _ =>
    let role := pyStrip part0
    let numStr := pyStrip part1
    let code := pyStrip part2
    if ¬ startsWithL role then
      .error .unrecognizedRole
    else match parsePyInt numStr with
      | none => .error .invalidStudentId
      | some n =>
        if ¬ (MIN_STUDENT_NUMBER ≤ n ∧ n ≤ MAX_STUDENT_NUMBER) then
          .error .invalidStudentId
        else if (STATUS_MAP code).isSome then .ok ⟨n, code⟩
        else .error .unknownStatusCode
  | _ => .error .malformedLine

/-- The read-loop processing of a batch of raw lines: each line is decoded
and, on success, handed to the consumer `handle`; a rejected line is dropped
and processing continues with the next line (the Python loop catches every
error per line). -/
def processLines {σ : Type} (handle : σ → DecodedEvent → σ) (s : σ) (lines : List String) : σ :=
  lines.foldl
    (fun st l =>
      match process_serial_message l with
      | .ok e => handle st e
      | .error _ => st) s

/-! ## LogManager (`support/log_manager.py`) -/

/-- One log entry as built by `LogManager.log`. -/
structure LogEntry where
  time : String
  type : String
  message : String
  color : String
deriving DecidableEq, Repr

/-- The arguments of one `LogManager.log` call, with the wall-clock string
passed in explicitly. -/
structure LogCall where
  message : String
  log_type : String
  is_error : Bool
  timeStr : String
deriving DecidableEq, Repr

/-- The entry `LogManager.log` constructs: the `is_error` compatibility flag
overrides the type to `ERROR`, and the color is looked up in `LOG_COLORS`. -/
def mkLogEntry (c : LogCall) : LogEntry :=
  let t := if c.is_error then "ERROR" else c.log_type
  ⟨c.timeStr, t, c.message, LOG_COLORS t⟩

/-- `LogManager.log` acting on the entry list: append the new entry, then
when the length exceeds `MAX_LOG_ENTRIES`, keep only the last
`MAX_LOG_ENTRIES` entries (`self.log_entries[-MAX_LOG_ENTRIES:]`). -/
def logStep (entries : List LogEntry) (c : LogCall) : List LogEntry :=
  let l2 := entries ++ [mkLogEntry c]
  if l2.length > MAX_LOG_ENTRIES then l2.drop (l2.length - MAX_LOG_ENTRIES) else l2

/-- Run a sequence of `LogManager.log` calls from a given entry list. -/
def runLog (entries : List LogEntry) (calls : List LogCall) : List LogEntry :=
  calls.foldl logStep entries

/-! ## Connection health check (`qubeMonitor.py`, `check_connection_health`) -/

/-- The state observed by one tick of `check_connection_health`: the
manual-disconnect flag, whether a port is selected, the elapsed times against
the reconnect/test/heartbeat timers, whether the handle reports open, and the
result a connection test would return. -/
structure HealthInput where
  manual_disconnect : Bool
  port_selected : Bool
  time_since_reconnect : Int
  ser_open : Bool
  time_since_test : Int
  test_ok : Bool
  time_since_heartbeat : Int
deriving DecidableEq, Repr

/-- Observable actions of one `check_connection_health` tick. -/
inductive HealthAction where
  | forcedReconnect
  | lostReconnect
  | testReconnect
  | heartbeatWarn
  | heartbeatReconnect
deriving DecidableEq, Repr

/-- One tick of `check_connection_health`: skip everything under manual
disconnect or without a selected port; force a reconnect beyond
`SERIAL_RECONNECT_INTERVAL` and return; reconnect and return when the handle
is not open; reconnect on a due, failing connection test; then log a Health
warning when the silence exceeds `SERIAL_HEARTBEAT_TIMEOUT` and additionally
reconnect when it exceeds `SERIAL_HEARTBEAT_RECONNECT`.  The heartbeat
section uses the silence as observed at the start of the tick, which matches
the source exactly whenever the test branch did not reconnect (a test-branch
reconnection resets the heartbeat timer mid-tick). -/
def check_connection_health (s : HealthInput) : List HealthAction :=
  if s.manual_disconnect then []
  else if ¬ s.port_selected then []
  else if s.time_since_reconnect > SERIAL_RECONNECT_INTERVAL then [.forcedReconnect]
  else if ¬ s.ser_open then [.lostReconnect]
  else
    let testActs : List HealthAction :=
      if s.time_since_test > 60 ∧ ¬ s.test_ok then [.testReconnect] else []
    let hbActs : List HealthAction :=
      if s.time_since_heartbeat > SERIAL_HEARTBEAT_TIMEOUT then
        if s.time_since_heartbeat > SERIAL_HEARTBEAT_RECONNECT then
          [.heartbeatWarn, .heartbeatReconnect]
        else [.heartbeatWarn]
      else []
    testActs ++ hbActs

/-! ## Operation sequences over the aggregator -/

/-- The public aggregator operations, with wall-clock inputs made explicit. -/
inductive AggOp where
  | updStatus (student_number : Int) (status_code : String) (now : Int) (nowStr : String)
  | updAllowed (student_text : String)
  | resolve (student_number : Int) (now : Int)
  | clearAll
deriving DecidableEq, Repr

/-- State effect of one aggregator operation. -/
def applyAggOp (m : StudentManager) : AggOp → StudentManager
  | .updStatus id code now nowStr => (update_student_status m id code now nowStr).1
  | .updAllowed text => update_allowed_students m text
  | .resolve id now => (resolve_student_issue m id now).1
  | .clearAll => clear_all_statuses m

/-- Run a sequence of aggregator operations from a starting state. -/
def runAggOps (m : StudentManager) (ops : List AggOp) : StudentManager :=
  ops.foldl applyAggOp m

/-- The records-only-for-allowed-students invariant: every student holding a
status record is a member of the current allow-list. -/
def statusesSubsetAllowed (m : StudentManager) : Bool :=
  m.student_statuses.all (fun p => m.allowed_students.contains p.1)

/-- An `updAllowed` call whose roster text is empty or whitespace-only. -/
def isBlankRosterOp : AggOp → Bool
  | .updAllowed text => pyIsBlank text
  | _ => false

/-- The severity tiers exactly as the specification words them for claim C5
("normal for elapsed time below 120 seconds, warning for elapsed time in the
120-300 second band, critical for elapsed time above 300 seconds"), rendered
in the code's color names; kept separate from `durationColor`, which embeds
the source, so the two can be compared. -/
def claimC5SeverityColor (d : Int) : String :=
  if d < 120 then "black"
  else if d ≤ 300 then "orange"
  else "red"

/-! ## Helper lemmas -/

/-- Looking up the modified key after an in-place value update. -/
theorem lookup_dictModify_self {α : Type} (l : List (Int × α)) (k : Int) (f : α → α) :
    (dictModify l k f).lookup k = (l.lookup k).map f := by
  induction l with
  | nil => rfl
  | cons p rest ih =>
    obtain ⟨k', v⟩ := p
    by_cases h : k' = k
    · subst h
      simp only [dictModify, List.map_cons]
      simp [List.lookup]
    · have hb : (k == k') = false := by
        rw [beq_eq_false_iff_ne]
        exact Ne.symm h
      simp only [dictModify, List.map_cons] at ih ⊢
      rw [if_neg h]
      simp only [List.lookup, hb]
      exact ih

/-- An in-place value update keeps every key, hence any per-key predicate. -/
theorem all_fst_dictModify {α : Type} (P : Int → Bool) (l : List (Int × α)) (k : Int)
    (f : α → α) :
    (dictModify l k f).all (fun p => P p.1) = l.all (fun p => P p.1) := by
  unfold dictModify
  rw [List.all_map]
  congr 1
  funext p
  by_cases h : p.1 = k <;> simp [h]

/-- Inserting a pair that satisfies a predicate preserves `all`. -/
theorem all_dictInsert {α : Type} (P : Int × α → Bool) (l : List (Int × α)) (k : Int)
    (v : α) (hl : l.all P = true) (hv : P (k, v) = true) :
    (dictInsert l k v).all P = true := by
  induction l with
  | nil => simpa [dictInsert]
  | cons p rest ih =>
    simp only [List.all_cons, Bool.and_eq_true] at hl
    by_cases h : p.1 = k
    · simp [dictInsert, h, hv, hl.2]
    · simp [dictInsert, h, hl.1, ih hl.2]

/-! ## Claim theorems -/

/-- Claim C1: for an event whose student is in the allow-list and whose code
is one of G, V, R, `update_student_status` returns a new status record —
with status-start reset to now — exactly when no record existed for the
student or the existing record's code differs from the event's; otherwise it
returns `none`. -/
theorem C1_status_change_iff (m : StudentManager) (id : Int) (code : String)
    (now : Int) (nowStr : String)
    (hAllow : is_student_allowed m id = true)
    (hCode : (STATUS_MAP code).isSome = true) :
    ((update_student_status m id code now nowStr).2.isSome = true ↔
      (m.student_statuses.lookup id = none ∨
        ∃ r, m.student_statuses.lookup id = some r ∧ r.code ≠ code)) ∧
    (∀ info, (update_student_status m id code now nowStr).2 = some info →
      info.status_start_time = now ∧ info.last_update = now ∧ info.code = code) := by
  obtain ⟨⟨st, co⟩, hsc⟩ := Option.isSome_iff_exists.mp hCode
  cases hl : m.student_statuses.lookup id with
  | none =>
    constructor
    · simp [update_student_status, hAllow, hsc, hl]
    · intro info hinfo
      simp [update_student_status, hAllow, hsc, hl] at hinfo
      simp [← hinfo]
  | some prev =>
    by_cases hc : prev.code = code
    · by_cases hd : now - prev.last_update < DUPLICATE_MESSAGE_THRESHOLD
      · constructor
        · simp [update_student_status, hAllow, hsc, hl, hc, hd]
        · intro info hinfo
          simp [update_student_status, hAllow, hsc, hl, hc, hd] at hinfo
      · constructor
        · simp [update_student_status, hAllow, hsc, hl, hc, hd]
        · intro info hinfo
          simp [update_student_status, hAllow, hsc, hl, hc, hd] at hinfo
    · constructor
      · simp [update_student_status, hAllow, hsc, hl, hc]
      · intro info hinfo
        simp [update_student_status, hAllow, hsc, hl, hc] at hinfo
        simp [← hinfo]

/-- Witness for C1 at a concrete input: student 123456 is allowed, has no
record yet, and a valid `R` event produces a status change started now. -/
theorem C1_status_change_iff_witness :
    is_student_allowed ⟨[123456], [], []⟩ 123456 = true ∧
    ((update_student_status ⟨[123456], [], []⟩ 123456 "R" 7 "t").2.isSome = true ↔
      ((⟨[123456], [], []⟩ : StudentManager).student_statuses.lookup 123456 = none ∨
        ∃ r, (⟨[123456], [], []⟩ : StudentManager).student_statuses.lookup 123456 = some r ∧
          r.code ≠ "R")) :=
  ⟨by decide,
    (C1_status_change_iff ⟨[123456], [], []⟩ 123456 "R" 7 "t" (by decide) (by decide)).1⟩

/-- Claim C2: a repeat event (existing record with the same code) yields no
notification; strictly inside the 5-second duplicate window the whole state
is untouched, and at or beyond the window only the record's last-update
field is set to now. -/
theorem C2_repeat_event (m : StudentManager) (id : Int) (code : String)
    (now : Int) (nowStr : String) (r : StatusRecord)
    (hAllow : is_student_allowed m id = true)
    (hCode : (STATUS_MAP code).isSome = true)
    (hl : m.student_statuses.lookup id = some r)
    (hc : r.code = code) :
    (update_student_status m id code now nowStr).2 = none ∧
    (now - r.last_update < DUPLICATE_MESSAGE_THRESHOLD →
      (update_student_status m id code now nowStr).1 = m) ∧
    (DUPLICATE_MESSAGE_THRESHOLD ≤ now - r.last_update →
      (update_student_status m id code now nowStr).1 =
        { m with student_statuses :=
            (dictModify m.student_statuses id (fun x => { x with last_update := now })) }) := by
  obtain ⟨⟨st, co⟩, hsc⟩ := Option.isSome_iff_exists.mp hCode
  by_cases hd : now - r.last_update < DUPLICATE_MESSAGE_THRESHOLD
  · refine ⟨?_, fun _ => ?_, fun hge => absurd hd (by omega)⟩
    · simp [update_student_status, hAllow, hsc, hl, hc, hd]
    · simp [update_student_status, hAllow, hsc, hl, hc, hd]
  · refine ⟨?_, fun hlt => absurd hlt hd, fun _ => ?_⟩
    · simp [update_student_status, hAllow, hsc, hl, hc, hd]
    · simp [update_student_status, hAllow, hsc, hl, hc, hd]

/-- Witness for C2 at a concrete input: a second identical `R` event 2
seconds after the first is discarded without touching the state. -/
theorem C2_repeat_event_witness :
    (update_student_status
      ⟨[123456], [], [(123456, ⟨"Hulp nodig", "red", "t", "R", 100, 100⟩)]⟩
      123456 "R" 102 "u").2 = none ∧
    (update_student_status
      ⟨[123456], [], [(123456, ⟨"Hulp nodig", "red", "t", "R", 100, 100⟩)]⟩
      123456 "R" 102 "u").1 =
      ⟨[123456], [], [(123456, ⟨"Hulp nodig", "red", "t", "R", 100, 100⟩)]⟩ := by
  have h := C2_repeat_event
    ⟨[123456], [], [(123456, ⟨"Hulp nodig", "red", "t", "R", 100, 100⟩)]⟩
    123456 "R" 102 "u" ⟨"Hulp nodig", "red", "t", "R", 100, 100⟩
    (by decide) (by decide) (by decide) (by decide)
  exact ⟨h.1, h.2.1 (by decide)⟩

/-- Claim C7: `resolve_student_issue` on a tracked student succeeds, rewrites
the record in place to code G with the "Opgelost" label and blue color and
last-update now, and afterwards `calculate_status_duration` for that student
returns nothing. -/
theorem C7_resolve_clears_duration (m : StudentManager) (id : Int) (now : Int)
    (r : StatusRecord)
    (hl : m.student_statuses.lookup id = some r) :
    (resolve_student_issue m id now).2 = true ∧
    (resolve_student_issue m id now).1.student_statuses.lookup id =
      some { r with status := "Opgelost", color := "blue", code := "G", last_update := now } ∧
    (∀ now2, calculate_status_duration (resolve_student_issue m id now).1 id now2 = none) := by
  have hres : (resolve_student_issue m id now).1.student_statuses =
      dictModify m.student_statuses id
        (fun x => { x with status := "Opgelost", color := "blue",
                           code := "G", last_update := now }) := by
    simp [resolve_student_issue, hl]
  have hlook : (resolve_student_issue m id now).1.student_statuses.lookup id =
      some { r with status := "Opgelost", color := "blue", code := "G", last_update := now } := by
    rw [hres, lookup_dictModify_self, hl]
    rfl
  refine ⟨by simp [resolve_student_issue, hl], hlook, fun now2 => ?_⟩
  simp [calculate_status_duration, hlook]

/-- Witness for C7 at a concrete input: resolving student 123456's
help-needed record. -/
theorem C7_resolve_clears_duration_witness :
    (resolve_student_issue
      ⟨[123456], [], [(123456, ⟨"Hulp nodig", "red", "t", "R", 100, 100⟩)]⟩ 123456 150).2 = true ∧
    calculate_status_duration
      (resolve_student_issue
        ⟨[123456], [], [(123456, ⟨"Hulp nodig", "red", "t", "R", 100, 100⟩)]⟩ 123456 150).1
      123456 200 = none := by
  have h := C7_resolve_clears_duration
    ⟨[123456], [], [(123456, ⟨"Hulp nodig", "red", "t", "R", 100, 100⟩)]⟩
    123456 150 ⟨"Hulp nodig", "red", "t", "R", 100, 100⟩ (by decide)
  exact ⟨h.1, h.2.2 200⟩

/-- Claim C10: with empty or whitespace-only roster text,
`update_allowed_students` empties the allow-list and the name map and leaves
the status-record map untouched — the deletion step for departed students is
skipped. -/
theorem C10_blank_roster_frame (m : StudentManager) (text : String)
    (h : pyIsBlank text = true) :
    update_allowed_students m text =
      { allowed_students := [], student_names := [],
        student_statuses := m.student_statuses } := by
  simp [update_allowed_students, h]

/-- Witness for C10 at a concrete input: a whitespace-only roster clears the
allow-list but the status record of student 123456 survives. -/
theorem C10_blank_roster_frame_witness :
    pyIsBlank " \n " = true ∧
    update_allowed_students
      ⟨[123456], [(123456, "Jan")], [(123456, ⟨"Vraag", "orange", "t", "V", 0, 0⟩)]⟩ " \n " =
      ⟨[], [], [(123456, ⟨"Vraag", "orange", "t", "V", 0, 0⟩)]⟩ :=
  ⟨by decide,
    C10_blank_roster_frame
      ⟨[123456], [(123456, "Jan")], [(123456, ⟨"Vraag", "orange", "t", "V", 0, 0⟩)]⟩
      " \n " (by decide)⟩

/-- Counterexample to claim C5 as stated: for a Question record whose status
started exactly 120 seconds ago, the code reports the normal color "black",
while the claimed tiers ("normal below 120s, warning in the 120-300s band")
place 120 seconds in the warning tier "orange". -/
theorem C5_counterexample :
    calculate_status_duration
      ⟨[123456], [], [(123456, ⟨"Vraag", "orange", "t", "V", 0, 0⟩)]⟩ 123456 120 =
      some ("2m 0s", "black") ∧
    claimC5SeverityColor 120 = "orange" ∧
    ("black" : String) ≠ "orange" := by
  refine ⟨?_, by decide, by decide⟩
  decide

/-- Claim C5 (amended): `calculate_status_duration` returns a formatted
duration plus a severity color only for records with code V or R and
nothing for all other codes; the severity is normal ("black") for elapsed
time up to and including 120 seconds, warning ("orange") above 120 up to and
including 300 seconds, and critical ("red") above 300 seconds. -/
theorem C5_duration_tiers (m : StudentManager) (id : Int) (now : Int)
    (r : StatusRecord)
    (hl : m.student_statuses.lookup id = some r) :
    ((r.code ≠ "V" ∧ r.code ≠ "R") → calculate_status_duration m id now = none) ∧
    ((r.code = "V" ∨ r.code = "R") →
      calculate_status_duration m id now =
        some (formatDuration (now - r.status_start_time),
          durationColor (now - r.status_start_time))) ∧
    (∀ d : Int,
      (d ≤ 120 → durationColor d = "black") ∧
      (120 < d → d ≤ 300 → durationColor d = "orange") ∧
      (300 < d → durationColor d = "red")) := by
  refine ⟨?_, ?_, ?_⟩
  · intro h
    simp [calculate_status_duration, hl, h]
  · intro h
    have h2 : ¬ (r.code ≠ "V" ∧ r.code ≠ "R") := by tauto
    simp only [calculate_status_duration, hl]
    rw [if_neg h2]
  · intro d
    unfold durationColor DURATION_CRITICAL_THRESHOLD DURATION_WARNING_THRESHOLD
    refine ⟨fun h => ?_, fun h1 h2 => ?_, fun h => ?_⟩
    · rw [if_neg (by omega), if_neg (by omega)]
    · rw [if_neg (by omega), if_pos (by omega)]
    · rw [if_pos (by omega)]

/-- Witness for C5 at a concrete input: a help-needed record 121 seconds old
reports the warning color. -/
theorem C5_duration_tiers_witness :
    calculate_status_duration
      ⟨[123456], [], [(123456, ⟨"Hulp nodig", "red", "t", "R", 0, 0⟩)]⟩ 123456 121 =
      some (formatDuration 121, durationColor 121) ∧
    durationColor 121 = "orange" := by
  have h := C5_duration_tiers
    ⟨[123456], [], [(123456, ⟨"Hulp nodig", "red", "t", "R", 0, 0⟩)]⟩
    123456 121 ⟨"Hulp nodig", "red", "t", "R", 0, 0⟩ (by decide)
  exact ⟨h.2.1 (Or.inr rfl), (h.2.2 121).2.1 (by decide) (by decide)⟩

/-- Claim C4, evaluated at the failing input: two help-needed records whose
statuses started at times 100 and 200. The sort key negates the status-start
time, so the ascending sort places the NEWEST record (student 222222,
started at 200) first, although the code's own comment and the specification
ask for the longest-waiting (oldest status-start) record first. -/
theorem C4_sorted_newest_first_eval :
    (get_sorted_students
      ⟨[111111, 222222], [],
        [(111111, ⟨"Hulp nodig", "red", "t", "R", 100, 100⟩),
         (222222, ⟨"Hulp nodig", "red", "t", "R", 200, 200⟩)]⟩).map Prod.fst =
      [222222, 111111] := by decide

/-- Claim C9: on a health-check tick with manual disconnect clear, a port
selected, the forced-refresh interval not yet elapsed, the handle open, and
the periodic connection test not failing (so that the heartbeat timer is not
reset mid-tick), a Health warning is emitted exactly when the silence
exceeds the 40-second heartbeat timeout, a reconnection is triggered exactly
when it exceeds the 90-second heartbeat-reconnect threshold, and no other
action fires — in particular silence in the 40-90 second band produces the
warning only, never a reconnection. -/
theorem C9_heartbeat_actions (s : HealthInput)
    (h1 : s.manual_disconnect = false)
    (h2 : s.port_selected = true)
    (h3 : s.time_since_reconnect ≤ SERIAL_RECONNECT_INTERVAL)
    (h4 : s.ser_open = true)
    (h5 : s.time_since_test ≤ 60 ∨ s.test_ok = true) :
    (HealthAction.heartbeatWarn ∈ check_connection_health s ↔
      SERIAL_HEARTBEAT_TIMEOUT < s.time_since_heartbeat) ∧
    (HealthAction.heartbeatReconnect ∈ check_connection_health s ↔
      SERIAL_HEARTBEAT_RECONNECT < s.time_since_heartbeat) ∧
    (∀ a ∈ check_connection_health s,
      a = HealthAction.heartbeatWarn ∨ a = HealthAction.heartbeatReconnect) := by
  have htest : ¬ (s.time_since_test > 60 ∧ ¬ s.test_ok = true) := by
    rcases h5 with h5 | h5
    · intro hcon
      omega
    · intro hcon
      exact hcon.2 h5
  have hrec : ¬ (s.time_since_reconnect > SERIAL_RECONNECT_INTERVAL) := not_lt.mpr h3
  unfold check_connection_health
  rw [h1, h2, h4]
  simp only [Bool.false_eq_true, if_false, not_true, if_neg hrec, if_neg htest]
  by_cases hw : s.time_since_heartbeat > SERIAL_HEARTBEAT_TIMEOUT
  · by_cases hr : s.time_since_heartbeat > SERIAL_HEARTBEAT_RECONNECT
    · rw [if_pos hw, if_pos hr]
      refine ⟨by simpa using hw, by simpa using hr, ?_⟩
      intro a ha
      simpa using ha
    · rw [if_pos hw, if_neg hr]
      refine ⟨by simpa using hw, by simpa using hr, ?_⟩
      intro a ha
      simp at ha
      simp [ha]
  · have hr : ¬ s.time_since_heartbeat > SERIAL_HEARTBEAT_RECONNECT := by
      unfold SERIAL_HEARTBEAT_TIMEOUT at hw
      unfold SERIAL_HEARTBEAT_RECONNECT
      omega
    rw [if_neg hw]
    refine ⟨by simpa using hw, by simpa using hr, ?_⟩
    intro a ha
    simp at ha

/-- Witness for C9 at a concrete input: 100 seconds of silence on an
otherwise healthy connected tick yields both the warning and a
reconnection. -/
theorem C9_heartbeat_actions_witness :
    (HealthAction.heartbeatWarn ∈ check_connection_health ⟨false, true, 50, true, 30, true, 100⟩ ↔
      SERIAL_HEARTBEAT_TIMEOUT < (100 : Int)) ∧
    (HealthAction.heartbeatReconnect ∈
        check_connection_health ⟨false, true, 50, true, 30, true, 100⟩ ↔
      SERIAL_HEARTBEAT_RECONNECT < (100 : Int)) := by
  have h := C9_heartbeat_actions ⟨false, true, 50, true, 30, true, 100⟩
    rfl rfl (by decide) rfl (Or.inl (by decide))
  exact ⟨h.1, h.2.1⟩


/-- Generalized log fold: starting from at most `MAX_LOG_ENTRIES` stored
entries, running any sequence of log calls leaves exactly the most recent
`MAX_LOG_ENTRIES` of the appended sequence, in order. -/
theorem runLog_drop (calls : List LogCall) :
    ∀ entries : List LogEntry, entries.length ≤ MAX_LOG_ENTRIES →
      runLog entries calls =
        (entries ++ calls.map mkLogEntry).drop
          ((entries.length + calls.length) - MAX_LOG_ENTRIES) := by
  induction calls with
  | nil =>
    intro entries h
    simp [runLog, Nat.sub_eq_zero_of_le h]
  | cons c cs ih =>
    intro entries h
    have hstep : runLog entries (c :: cs) = runLog (logStep entries c) cs := rfl
    by_cases hlt : entries.length + 1 ≤ MAX_LOG_ENTRIES
    · have hcond : ¬ ((entries ++ [mkLogEntry c]).length > MAX_LOG_ENTRIES) := by
        simp only [List.length_append, List.length_cons, List.length_nil]
        omega
      have hs : logStep entries c = entries ++ [mkLogEntry c] := by
        simp only [logStep]
        rw [if_neg hcond]
      have hlen2 : (entries ++ [mkLogEntry c]).length ≤ MAX_LOG_ENTRIES := by
        simp only [List.length_append, List.length_cons, List.length_nil]
        omega
      have hidx : (entries ++ [mkLogEntry c]).length + cs.length - MAX_LOG_ENTRIES =
          entries.length + (c :: cs).length - MAX_LOG_ENTRIES := by
        simp only [List.length_append, List.length_cons, List.length_nil]
        omega
      rw [hstep, hs, ih _ hlen2, hidx]
      simp only [List.map_cons]
      rw [List.append_cons entries (mkLogEntry c) (cs.map mkLogEntry)]
    · have hcond : (entries ++ [mkLogEntry c]).length > MAX_LOG_ENTRIES := by
        simp only [List.length_append, List.length_cons, List.length_nil]
        omega
      have hidx2 : (entries ++ [mkLogEntry c]).length - MAX_LOG_ENTRIES = 1 := by
        simp only [List.length_append, List.length_cons, List.length_nil]
        omega
      have hs : logStep entries c = (entries ++ [mkLogEntry c]).drop 1 := by
        simp only [logStep]
        rw [if_pos hcond, hidx2]
      have hlen2 : ((entries ++ [mkLogEntry c]).drop 1).length ≤ MAX_LOG_ENTRIES := by
        simp only [List.length_drop, List.length_append, List.length_cons, List.length_nil]
        omega
      have h1le : 1 ≤ (entries ++ [mkLogEntry c]).length := by
        simp only [List.length_append, List.length_cons, List.length_nil]
        omega
      have hidx3 : 1 + (((entries ++ [mkLogEntry c]).drop 1).length + cs.length -
          MAX_LOG_ENTRIES) = entries.length + (c :: cs).length - MAX_LOG_ENTRIES := by
        simp only [List.length_drop, List.length_append, List.length_cons, List.length_nil]
        omega
      rw [hstep, hs, ih _ hlen2]
      rw [← List.drop_append_of_le_length h1le, List.drop_drop, hidx3]
      simp only [List.map_cons]
      rw [List.append_cons entries (mkLogEntry c) (cs.map mkLogEntry)]

/-- Claim C8: from an empty log, any sequence of log calls leaves exactly the
most recent `MAX_LOG_ENTRIES` constructed entries, in their original
oldest-first order with every retained entry unmodified, and the stored
count never exceeds `MAX_LOG_ENTRIES`. -/
theorem C8_log_cap (calls : List LogCall) :
    runLog [] calls = (calls.map mkLogEntry).drop (calls.length - MAX_LOG_ENTRIES) ∧
    (runLog [] calls).length ≤ MAX_LOG_ENTRIES := by
  have h := runLog_drop calls [] (by simp)
  simp only [List.nil_append, List.length_nil, Nat.zero_add] at h
  refine ⟨h, ?_⟩
  rw [h, List.length_drop, List.length_map]
  omega

/-- An in-place dict update only re-pairs existing keys. -/
theorem fst_mem_dictModify {α : Type} {l : List (Int × α)} {k : Int} {f : α → α}
    {p : Int × α} (hp : p ∈ dictModify l k f) : ∃ q ∈ l, p.1 = q.1 := by
  unfold dictModify at hp
  obtain ⟨q, hq, hgq⟩ := List.mem_map.mp hp
  refine ⟨q, hq, ?_⟩
  by_cases h : q.1 = k
  · rw [← hgq, if_pos h]
  · rw [← hgq, if_neg h]

/-- Membership after a dict insertion: an old element or the new pair. -/
theorem mem_dictInsert {α : Type} {l : List (Int × α)} {k : Int} {v : α}
    {p : Int × α} (hp : p ∈ dictInsert l k v) : p ∈ l ∨ p = (k, v) := by
  induction l with
  | nil =>
    unfold dictInsert at hp
    rcases List.mem_singleton.mp hp with h
    exact Or.inr h
  | cons q rest ih =>
    obtain ⟨k', v'⟩ := q
    unfold dictInsert at hp
    by_cases h : k' = k
    · rw [if_pos h] at hp
      rcases List.mem_cons.mp hp with h1 | h1
      · exact Or.inr h1
      · exact Or.inl (List.mem_cons_of_mem _ h1)
    · rw [if_neg h] at hp
      rcases List.mem_cons.mp hp with h1 | h1
      · exact Or.inl (h1 ▸ List.mem_cons_self _ _)
      · rcases ih h1 with h2 | h2
        · exact Or.inl (List.mem_cons_of_mem _ h2)
        · exact Or.inr h2

/-- The record-membership reading of `statusesSubsetAllowed`. -/
theorem subsetAllowed_mem (m : StudentManager) :
    statusesSubsetAllowed m = true ↔
      ∀ p ∈ m.student_statuses, m.allowed_students.contains p.1 = true := by
  unfold statusesSubsetAllowed
  exact List.all_eq_true

/-- `update_student_status` preserves the records-only-for-allowed
invariant: it only ever touches the record of a student it has checked
against the allow-list, or refreshes an existing key. -/
theorem subsetAllowed_updStatus (m : StudentManager) (id : Int) (code : String)
    (now : Int) (nowStr : String) (h : statusesSubsetAllowed m = true) :
    statusesSubsetAllowed (update_student_status m id code now nowStr).1 = true := by
  by_cases hA : is_student_allowed m id = true
  · cases hsm : STATUS_MAP code with
    | none =>
      have heq : (update_student_status m id code now nowStr).1 = m := by
        simp [update_student_status, hA, hsm]
      rw [heq]
      exact h
    | some tc =>
      obtain ⟨st, co⟩ := tc
      cases hl : m.student_statuses.lookup id with
      | none =>
        have heq : (update_student_status m id code now nowStr).1 =
            { m with student_statuses :=
                (dictInsert m.student_statuses id ⟨st, co, nowStr, code, now, now⟩) } := by
          simp [update_student_status, hA, hsm, hl]
        rw [heq, subsetAllowed_mem]
        intro p hp
        have hp2 : p ∈ dictInsert m.student_statuses id ⟨st, co, nowStr, code, now, now⟩ := hp
        show m.allowed_students.contains p.1 = true
        rcases mem_dictInsert hp2 with h1 | h1
        · exact (subsetAllowed_mem m).mp h p h1
        · rw [h1]
          exact hA
      | some prev =>
        by_cases hc : prev.code = code
        · by_cases hd : now - prev.last_update < DUPLICATE_MESSAGE_THRESHOLD
          · have heq : (update_student_status m id code now nowStr).1 = m := by
              simp [update_student_status, hA, hsm, hl, hc, hd]
            rw [heq]
            exact h
          · have heq : (update_student_status m id code now nowStr).1 =
                { m with student_statuses :=
                    (dictModify m.student_statuses id
                      (fun r => { r with last_update := now })) } := by
              simp [update_student_status, hA, hsm, hl, hc, hd]
            rw [heq, subsetAllowed_mem]
            intro p hp
            have hp2 : p ∈ dictModify m.student_statuses id
                (fun r => { r with last_update := now }) := hp
            show m.allowed_students.contains p.1 = true
            obtain ⟨q, hq, he⟩ := fst_mem_dictModify hp2
            rw [he]
            exact (subsetAllowed_mem m).mp h q hq
        · have heq : (update_student_status m id code now nowStr).1 =
              { m with student_statuses :=
                  (dictInsert m.student_statuses id ⟨st, co, nowStr, code, now, now⟩) } := by
            simp [update_student_status, hA, hsm, hl, hc]
          rw [heq, subsetAllowed_mem]
          intro p hp
          have hp2 : p ∈ dictInsert m.student_statuses id ⟨st, co, nowStr, code, now, now⟩ := hp
          show m.allowed_students.contains p.1 = true
          rcases mem_dictInsert hp2 with h1 | h1
          · exact (subsetAllowed_mem m).mp h p h1
          · rw [h1]
            exact hA
  · have heq : (update_student_status m id code now nowStr).1 = m := by
      simp [update_student_status, hA]
    rw [heq]
    exact h

/-- A non-blank roster replacement establishes the invariant outright: the
surviving records are exactly those filtered against the new allow-list. -/
theorem subsetAllowed_updAllowed (m : StudentManager) (text : String)
    (hb : pyIsBlank text = false) :
    statusesSubsetAllowed (update_allowed_students m text) = true := by
  unfold update_allowed_students
  rw [if_neg (by simp [hb])]
  rw [subsetAllowed_mem]
  intro p hp
  exact (List.mem_filter.mp hp).2

/-- `resolve_student_issue` preserves the invariant: it only rewrites the
value stored under an existing key. -/
theorem subsetAllowed_resolve (m : StudentManager) (id : Int) (now : Int)
    (h : statusesSubsetAllowed m = true) :
    statusesSubsetAllowed (resolve_student_issue m id now).1 = true := by
  cases hl : m.student_statuses.lookup id with
  | none =>
    have heq : (resolve_student_issue m id now).1 = m := by
      simp [resolve_student_issue, hl]
    rw [heq]
    exact h
  | some r =>
    have heq : (resolve_student_issue m id now).1 =
        { m with student_statuses :=
            (dictModify m.student_statuses id
              (fun x => { x with status := "Opgelost", color := "blue",
                                 code := "G", last_update := now })) } := by
      simp [resolve_student_issue, hl]
    rw [heq, subsetAllowed_mem]
    intro p hp
    have hp2 : p ∈ dictModify m.student_statuses id
        (fun x => { x with status := "Opgelost", color := "blue",
                           code := "G", last_update := now }) := hp
    show m.allowed_students.contains p.1 = true
    obtain ⟨q, hq, he⟩ := fst_mem_dictModify hp2
    rw [he]
    exact (subsetAllowed_mem m).mp h q hq

/-- Counterexample to claim C3 as stated: add student 123456 to the roster,
record a help-needed status for them, then submit a whitespace-only roster.
The allow-list is emptied but the early return skips record deletion, so
student 123456 still holds a record while allowed by nobody. -/
theorem C3_counterexample :
    statusesSubsetAllowed (runAggOps initStudentManager
      [AggOp.updAllowed "123456", AggOp.updStatus 123456 "R" 0 "t",
       AggOp.updAllowed " "]) = false := by decide

/-- Claim C3 (amended): after every sequence of public aggregator operations
starting from the empty state in which `update_allowed_students` is never
called with empty or whitespace-only roster text, every student holding a
status record is a member of the current allow-list.  (The unrestricted
claim fails: a blank roster empties the allow-list but returns before the
record-deletion step.) -/
theorem C3_invariant_nonblank (ops : List AggOp)
    (hops : ∀ op ∈ ops, isBlankRosterOp op = false) :
    statusesSubsetAllowed (runAggOps initStudentManager ops) = true := by
  suffices hgen : ∀ (l : List AggOp) (m : StudentManager), statusesSubsetAllowed m = true →
      (∀ op ∈ l, isBlankRosterOp op = false) →
      statusesSubsetAllowed (runAggOps m l) = true by
    exact hgen ops initStudentManager (by decide) hops
  intro l
  induction l with
  | nil =>
    intro m hm _
    exact hm
  | cons op rest ih =>
    intro m hm hall
    have hop : isBlankRosterOp op = false := hall op (List.mem_cons_self _ _)
    have hrest : ∀ o ∈ rest, isBlankRosterOp o = false :=
      fun o ho => hall o (List.mem_cons_of_mem _ ho)
    have hm2 : statusesSubsetAllowed (applyAggOp m op) = true := by
      cases op with
      | updStatus id code now nowStr => exact subsetAllowed_updStatus m id code now nowStr hm
      | updAllowed text =>
        exact subsetAllowed_updAllowed m text (by simpa [isBlankRosterOp] using hop)
      | resolve id now => exact subsetAllowed_resolve m id now hm
      | clearAll =>
        show statusesSubsetAllowed (clear_all_statuses m) = true
        rw [subsetAllowed_mem]
        intro p hp
        simp [clear_all_statuses] at hp
    exact ih (applyAggOp m op) hm2 hrest

/-- Witness for C3 (amended) on a concrete non-blank operation sequence. -/
theorem C3_invariant_nonblank_witness :
    (∀ op ∈ ([AggOp.updAllowed "123456", AggOp.updStatus 123456 "R" 0 "t"] : List AggOp),
      isBlankRosterOp op = false) ∧
    statusesSubsetAllowed (runAggOps initStudentManager
      [AggOp.updAllowed "123456", AggOp.updStatus 123456 "R" 0 "t"]) = true :=
  ⟨by decide, C3_invariant_nonblank _ (by decide)⟩

/-- Claim C6: the decoder accepts a raw line and produces an event exactly
when the line splits on commas into at least 3 fields, the first (stripped)
field starts with `L`, the second parses as a base-10 integer in
`[MIN_STUDENT_NUMBER, MAX_STUDENT_NUMBER]`, and the third is a known status
code; the conditions are checked in that order, the first failure
short-circuits into its classified rejection reason, and a rejected line is
dropped while processing of subsequent lines continues. -/
theorem C6_decoder_validation (line : String) :
    ((∃ e, process_serial_message line = Except.ok e) ↔
      (3 ≤ (pySplit ',' line).length ∧
       startsWithL (pyStrip ((pySplit ',' line).getD 0 "")) = true ∧
       (∃ n, parsePyInt (pyStrip ((pySplit ',' line).getD 1 "")) = some n ∧
         MIN_STUDENT_NUMBER ≤ n ∧ n ≤ MAX_STUDENT_NUMBER) ∧
       (STATUS_MAP (pyStrip ((pySplit ',' line).getD 2 ""))).isSome = true)) ∧
    (¬ 3 ≤ (pySplit ',' line).length →
      process_serial_message line = .error .malformedLine) ∧
    (3 ≤ (pySplit ',' line).length →
      ¬ startsWithL (pyStrip ((pySplit ',' line).getD 0 "")) = true →
      process_serial_message line = .error .unrecognizedRole) ∧
    (3 ≤ (pySplit ',' line).length →
      startsWithL (pyStrip ((pySplit ',' line).getD 0 "")) = true →
      ¬ (∃ n, parsePyInt (pyStrip ((pySplit ',' line).getD 1 "")) = some n ∧
          MIN_STUDENT_NUMBER ≤ n ∧ n ≤ MAX_STUDENT_NUMBER) →
      process_serial_message line = .error .invalidStudentId) ∧
    (3 ≤ (pySplit ',' line).length →
      startsWithL (pyStrip ((pySplit ',' line).getD 0 "")) = true →
      (∃ n, parsePyInt (pyStrip ((pySplit ',' line).getD 1 "")) = some n ∧
        MIN_STUDENT_NUMBER ≤ n ∧ n ≤ MAX_STUDENT_NUMBER) →
      ¬ (STATUS_MAP (pyStrip ((pySplit ',' line).getD 2 ""))).isSome = true →
      process_serial_message line = .error .unknownStatusCode) ∧
    (∀ (σ : Type) (handle : σ → DecodedEvent → σ) (s : σ) (rest : List String)
      (r : RejectReason), process_serial_message line = .error r →
      processLines handle s (line :: rest) = processLines handle s rest) := by
  rcases hps : pySplit ',' line with _ | ⟨a, _ | ⟨b, _ | ⟨c, rest⟩⟩⟩
  · have heq : process_serial_message line = .error .malformedLine := by
      simp [process_serial_message, hps]
    refine ⟨?_, ?_, ?_, ?_, ?_, ?_⟩ <;>
      simp [heq, hps, processLines]
  · have heq : process_serial_message line = .error .malformedLine := by
      simp [process_serial_message, hps]
    refine ⟨?_, ?_, ?_, ?_, ?_, ?_⟩ <;>
      simp [heq, hps, processLines]
  · have heq : process_serial_message line = .error .malformedLine := by
      simp [process_serial_message, hps]
    refine ⟨?_, ?_, ?_, ?_, ?_, ?_⟩ <;>
      simp [heq, hps, processLines]
  · by_cases hR : startsWithL (pyStrip a) = true
    · cases hpn : parsePyInt (pyStrip b) with
      | none =>
        have heq : process_serial_message line = .error .invalidStudentId := by
          simp [process_serial_message, hps, hR, hpn]
        refine ⟨?_, ?_, ?_, ?_, ?_, ?_⟩ <;>
          simp [heq, hps, hR, hpn, processLines]
      | some n =>
        by_cases hrange : MIN_STUDENT_NUMBER ≤ n ∧ n ≤ MAX_STUDENT_NUMBER
        · cases hsm : STATUS_MAP (pyStrip c) with
          | none =>
            have heq : process_serial_message line = .error .unknownStatusCode := by
              simp [process_serial_message, hps, hR, hpn, hrange, hsm]
            refine ⟨?_, ?_, ?_, ?_, ?_, ?_⟩ <;>
              simp [heq, hps, hR, hpn, hrange.1, hrange.2, hsm, processLines]
          | some tc =>
            have heq : process_serial_message line = Except.ok ⟨n, pyStrip c⟩ := by
              simp [process_serial_message, hps, hR, hpn, hrange, hsm]
            refine ⟨?_, ?_, ?_, ?_, ?_, ?_⟩ <;>
              simp [heq, hps, hR, hpn, hrange.1, hrange.2, hsm, processLines]
        · have heq : process_serial_message line = .error .invalidStudentId := by
            simp [process_serial_message, hps, hR, hpn, hrange]
          refine ⟨?_, ?_, ?_, ?_, ?_, ?_⟩ <;>
            simp [heq, hps, hR, hpn, hrange, processLines]
    · have heq : process_serial_message line = .error .unrecognizedRole := by
        simp [process_serial_message, hps, hR]
      refine ⟨?_, ?_, ?_, ?_, ?_, ?_⟩ <;>
        simp [heq, hps, hR, processLines]

/-- Witness for C6 at concrete inputs: a two-field line is rejected as
malformed, and the canonical accepted line decodes. -/
theorem C6_decoder_validation_witness :
    process_serial_message "L,123456" = .error .malformedLine ∧
    (∃ e, process_serial_message "L,123456,R" = Except.ok e) := by
  constructor
  · exact (C6_decoder_validation "L,123456").2.1 (by decide)
  · exact (C6_decoder_validation "L,123456,R").1.mpr (by decide)
